import Mathlib

/-!
# Verification of the factoratio catalog/rate model

A shallow embedding, in Lean 4, of the parts of the `factoratio` repository
(`factoratio/util.py`, `factoratio/item.py`, `factoratio/fuel.py`,
`factoratio/producer.py`, `factoratio/prototype.py`) that the specification's
claims are about, together with theorems settling those claims.

Modelling conventions:
* Python floats (and Lua numbers) are modelled as exact rationals `ℚ`.
* Python `None`-returning lookups and fallible operations are modelled with
  `Option` / `Except`.
* Python dictionaries are modelled as association lists (`List (String × α)`)
  in insertion order; `del d[k]` is modelled by removing every entry with key
  `k` (dictionary keys are unique, so this agrees with deleting the one entry).
* Python exceptions are modelled as `Except` error values.
-/

namespace Factoratio

/-! ## Python rounding (`round(x, n)` and the half-even rule of float/str formatting) -/

/-- Python's banker's rounding of a rational to an integer: round to nearest,
ties to the even integer (used by `round(x, ndigits)` and by `format` rounding,
here applied to the exact rational standing in for the float). -/
def pyRoundHalfEven (q : ℚ) : ℤ :=
  let f := ⌊q⌋
  let r := q - f
  if r < 1/2 then f
  else if 1/2 < r then f + 1
  else if f % 2 = 0 then f else f + 1

/-- Model of Python `round(x, 6)` on the exact rational value
(used by `Producer._getMultiplier`, producer.py line 110). -/
def pyRound6 (q : ℚ) : ℚ := (pyRoundHalfEven (q * 10^6) : ℚ) / 10^6

/-! ## util.py — `SINumber` string parsing

`SINumber.__init__` (util.py lines 139-160).  Python strings are modelled as
`List Char`; `str.casefold` on the ASCII letters involved is `Char.toLower`;
`float(...)` is modelled by `parseFloat` below (plain decimal notation with an
optional exponent part, which is the fragment of Python float syntax the
definition files use; `inf`/`nan`/underscores/whitespace are not modelled). -/

/-- Take leading decimal digits off a character list, returning their values
and the rest. -/
def takeDigits : List Char → List ℕ × List Char
  | [] => ([], [])
  | c :: t =>
    if c.isDigit then
      let (d, r) := takeDigits t
      ((c.toNat - 48) :: d, r)
    else ([], c :: t)

/-- Value of a list of decimal digits, most significant first. -/
def digitsToNat (l : List ℕ) : ℕ := l.foldl (fun a d => a * 10 + d) 0

/-- Parse the exponent part after `e`/`E`: an optional sign and at least one
digit, which must consume the whole rest of the string. -/
def parseExponent (s : List Char) : Option ℤ :=
  let (sign, s) := match s with
    | '+' :: t => ((1 : ℤ), t)
    | '-' :: t => ((-1 : ℤ), t)
    | _ => ((1 : ℤ), s)
  let (d, r) := takeDigits s
  if d.isEmpty ∨ ¬ r.isEmpty then none else some (sign * digitsToNat d)

/-- Model of Python `float(s)`: optional sign, digits with an optional decimal
point (at least one digit overall), optional exponent part.  Returns `none`
when the string is not a valid number (Python raises `ValueError`). -/
def parseFloat (s : List Char) : Option ℚ :=
  let (sign, s) := match s with
    | '+' :: t => ((1 : ℚ), t)
    | '-' :: t => ((-1 : ℚ), t)
    | _ => ((1 : ℚ), s)
  let (ip, s) := takeDigits s
  let (fp, s) := match s with
    | '.' :: t => takeDigits t
    | _ => ([], s)
  if ip.isEmpty ∧ fp.isEmpty then none
  else
    let mant : ℚ := (digitsToNat ip : ℚ) + (digitsToNat fp : ℚ) / 10 ^ fp.length
    match s with
    | [] => some (sign * mant)
    | 'e' :: t => (parseExponent t).map (fun ex => sign * mant * (10 : ℚ) ^ ex)
    | 'E' :: t => (parseExponent t).map (fun ex => sign * mant * (10 : ℚ) ^ ex)
    | _ => none

/-- `SINumber._suffixTable` (util.py line 121). -/
def suffixTable : List (Char × ℚ) :=
  [('k', 1000), ('m', 1000000), ('g', 1000000000), ('t', 1000000000000)]

/-- Look a character up in the suffix table (`suffix in self._suffixTable`
followed by `self._suffixTable[suffix]`). -/
def suffixLookup : List (Char × ℚ) → Char → Option ℚ
  | [], _ => none
  | (c, v) :: t, k => if c = k then some v else suffixLookup t k

/-- The errors the string branch of `SINumber.__init__` can raise.
`indexError` is Python's uncaught `IndexError` from `units[-1]` on an empty
string (util.py line 142); `emptyValueError` is
`ValueError('units string cannot be empty')`; `invalidNumber` is
`ValueError('units string must contain a valid number')`; `invalidSuffix` is
`ValueError("Invalid suffix: ...")`. -/
inductive SIParseErr where
  | indexError
  | emptyValueError
  | invalidNumber
  | invalidSuffix
  deriving DecidableEq, Repr

/-- The state `SINumber.__init__` establishes: `self.value` and, when an SI
suffix was present, `self.origSuffix`. -/
structure SIParsed where
  value : ℚ
  origSuffix : Option Char
  deriving DecidableEq, Repr

/-- Model of the string branch of `SINumber.__init__` (util.py lines 141-158).

Line by line: `units[-1].casefold() == self.baseSymbol.casefold()` strips a
trailing base symbol — on an empty input this very indexing raises an uncaught
`IndexError`; then `suffix = units[-1]` (its `IndexError` is caught and
re-raised as the empty-string `ValueError`); then the numeric portion
(`units[:-1]` when the last character is alphabetic, else all of `units`) is
parsed, a failure raising the invalid-number `ValueError`; finally an
alphabetic suffix is looked up in the suffix table, multiplying the scalar or
raising the invalid-suffix `ValueError`. -/
def siNumberInitStr (units : List Char) (baseSymbol : Char) : Except SIParseErr SIParsed :=
  match units.getLast? with
  | none => .error .indexError
  | some last =>
    let units := if last.toLower = baseSymbol.toLower then units.dropLast else units
    match units.getLast? with
    | none => .error .emptyValueError
    | some c =>
      let suffix := c.toLower
      if suffix.isAlpha then
        match parseFloat units.dropLast with
        | none => .error .invalidNumber
        | some scalar =>
          match suffixLookup suffixTable suffix with
          | some mult => .ok ⟨scalar * mult, some suffix⟩
          | none => .error .invalidSuffix
      else
        match parseFloat units with
        | none => .error .invalidNumber
        | some scalar => .ok ⟨scalar, none⟩

/-! ## util.py — `SINumber.__str__` (lines 165-175)

The formatter computes `power = min(12, floor(log10(abs(value))))`,
`d, m = divmod(power, 3)`, scales the value by `10**(m - power)`, prints it
with `{reduced:.4}` (4 significant digits, ties to even) and appends
`' kMGT'[d]` when `d > 0` (an empty suffix otherwise) before the base symbol.
We model the numeric content of the produced string: the displayed number and
the multiplier denoted by the printed SI suffix. -/

/-- `⌊log10 n⌋` for a natural number `1 ≤ n`, computed with explicit fuel so
that it reduces in the kernel (the fuel bounds the recursion depth; `fuel = n`
always suffices since `n / 10 < n` for `n ≥ 1`). -/
def natLog10F : ℕ → ℕ → ℕ
  | 0, _ => 0
  | fuel + 1, n => if n < 10 then 0 else natLog10F fuel (n / 10) + 1

/-- `⌊log10 n⌋` for `1 ≤ n` (0 for `n = 0`). -/
def natLog10 (n : ℕ) : ℕ := natLog10F n n

/-- `⌈log10 m⌉` for a natural number `1 ≤ m`: the least `k` with `m ≤ 10^k`,
computed with explicit fuel. -/
def natClog10F : ℕ → ℕ → ℕ
  | 0, _ => 0
  | fuel + 1, m => if m ≤ 1 then 0 else natClog10F fuel ((m + 9) / 10) + 1

/-- `⌈log10 m⌉` for `1 ≤ m`. -/
def natClog10 (m : ℕ) : ℕ := natClog10F m m

/-- `⌊log10 v⌋` for a positive rational `v`, the exact value of
`math.floor(math.log10(v))`: for `v ≥ 1` it is `⌊log10 ⌊v⌋⌋`, and for
`0 < v < 1` it is `-⌈log10 ⌈v⁻¹⌉⌉`. -/
def qlog10floor (v : ℚ) : ℤ :=
  if 1 ≤ v then (natLog10 ⌊v⌋.toNat : ℤ)
  else -(natClog10 ⌈v⁻¹⌉.toNat : ℤ)

/-- The number displayed by Python's `{x:.4}` (general format, 4 significant
digits): `x` rounded to 4 significant decimal digits, ties to even; `0` for
`x = 0`. -/
def roundSig4 (x : ℚ) : ℚ :=
  if x = 0 then 0
  else (if x < 0 then -1 else 1) *
    (pyRoundHalfEven (|x| * (10 : ℚ) ^ ((3 : ℤ) - qlog10floor |x|)) : ℚ) *
    (10 : ℚ) ^ (qlog10floor |x| - 3)

/-- Numeric content of `SINumber.__str__` (util.py lines 165-175): the pair of
the displayed number (after `{reduced:.4}` rounding) and the multiplier of the
printed SI suffix (`10^(3d)` for `' kMGT'[d]` when `d > 0`, and `1` when the
suffix is omitted — including, as in the source, when `d < 0`). -/
def siFormat (v : ℚ) : ℚ × ℚ :=
  if v = 0 then (0, 1)
  else
    let power : ℤ := min 12 (qlog10floor |v|)
    let d : ℤ := Int.fdiv power 3
    let m : ℤ := Int.fmod power 3
    let reduced : ℚ := v * (10 : ℚ) ^ (m - power)
    (roundSig4 reduced, if 0 < d then (10 : ℚ) ^ (3 * d) else 1)

/-- The numeric value a reader obtains from the formatted string: the
displayed number times the printed suffix's multiplier. -/
def siConveyed (v : ℚ) : ℚ := (siFormat v).1 * (siFormat v).2

/-- Multiplier of the `j`-th SI suffix accepted by the parser:
`j = 0, 1, 2, 3, 4` for none, `k`, `M`, `G`, `T`. -/
def suffixMultOf (j : ℕ) : ℚ := (10 : ℚ) ^ (3 * j)

/-! ## item.py — Item, Fluid, Ingredient -/

/-- `Item` (item.py lines 84-111).  The `subgroup` reference is modelled by
the subgroup's name (the catalog's group structure is modelled separately for
the pruning claims). -/
structure ItemT where
  name : String
  type : String
  subgroup : String
  order : String
  deriving DecidableEq, Repr

/-- A resolved product: an `Item` or a `Fluid` reference as it appears inside
an `Ingredient`.  For `Fluid` only the fields the rate model reads are kept
(`name`); the full `Fluid` constructor is modelled separately below. -/
inductive Product where
  | item (i : ItemT)
  | fluid (name : String)
  deriving DecidableEq, Repr

/-- The name of a product (`ingredient.what.name`). -/
def Product.name : Product → String
  | .item i => i.name
  | .fluid n => n

/-- `Ingredient` (item.py lines 154-182): a product with a count and a
probability. -/
structure IngredientT where
  what : Product
  count : ℚ
  probability : ℚ
  deriving DecidableEq, Repr

/-- `Ingredient.__post_init__` defaulting (item.py lines 178-182): a `None`
count or probability becomes `1`.  The `isinstance` check on `what` is
enforced by the type of `Product`. -/
def mkIngredient (what : Product) (count probability : Option ℚ) : IngredientT :=
  ⟨what, count.getD 1, probability.getD 1⟩

/-- The argument Python passes for `Fluid.heat_capacity`: per the declared
`Union[Joule, str]`, either an already-constructed `Joule` (modelled by its
value) or a numeric-with-suffix string. -/
inductive HeatCapArg where
  | joule (j : ℚ)
  | str (s : List Char)

/-- Errors `Fluid` construction can raise: the `TypeError` from
`__post_init__`, or a `ValueError` from `Joule` parsing the string. -/
inductive FluidErr where
  | typeError
  | parse (e : SIParseErr)
  deriving DecidableEq

/-- A constructed `Fluid` (item.py lines 114-148), with `heat_capacity`
already converted to a Joule value. -/
structure FluidT where
  name : String
  temp_default : ℚ
  temp_max : ℚ
  heat_capacity : ℚ
  order : String
  deriving DecidableEq

/-- `Fluid` construction including `__post_init__` (item.py lines 144-148):
a string `heat_capacity` is converted via `Joule(...)` (i.e. `SINumber`
parsing with base symbol `J`); anything that is not a string — including a
`Joule`, despite the declared `Union[Joule, str]` — raises
`TypeError('heat_capacity must be of type str or Joule')`. -/
def Fluid.make (name : String) (temp_default temp_max : ℚ) (heat_capacity : HeatCapArg)
    (order : String) : Except FluidErr FluidT :=
  match heat_capacity with
  | .str s =>
    match siNumberInitStr s 'J' with
    | .ok p => .ok ⟨name, temp_default, temp_max, p.value, order⟩
    | .error e => .error (.parse e)
  | .joule _ => .error .typeError

/-! ## item.py — Recipe and its expensive variant (lines 188-292)

`Recipe` objects are mutable and `addExpensiveMode` mutates both the receiver
(`self._expensive = recipe`) and the argument (`recipe._isExpensive = True`);
since `self._expensive` is a reference to the argument, the variant seen
through the receiver is the argument in its mutated state.  We model the
operation as returning the updated states of both objects, the receiver's
`_expensive` slot owning the updated argument. -/

/-- State of a `Recipe` object: crafting time, input and output ingredient
lists, the `_expensive` slot and the `_isExpensive` tag. -/
inductive RecipeObj where
  | mk (time : ℚ) (input : List IngredientT) (output : List IngredientT)
      (expensiveSlot : Option RecipeObj) (isExpensiveTag : Bool)

/-- `recipe.time`. -/
def RecipeObj.time : RecipeObj → ℚ
  | .mk t _ _ _ _ => t

/-- `recipe.input`. -/
def RecipeObj.input : RecipeObj → List IngredientT
  | .mk _ i _ _ _ => i

/-- `recipe.output`. -/
def RecipeObj.output : RecipeObj → List IngredientT
  | .mk _ _ o _ _ => o

/-- `recipe.expensive()` (item.py lines 251-253): the `_expensive` slot. -/
def RecipeObj.expensive : RecipeObj → Option RecipeObj
  | .mk _ _ _ e _ => e

/-- `recipe.isExpensive()` (item.py lines 255-257): the `_isExpensive` tag. -/
def RecipeObj.isExpensive : RecipeObj → Bool
  | .mk _ _ _ _ b => b

/-- `Recipe.__init__` (item.py lines 206-212): fields assigned positionally,
`_expensive = None`, `_isExpensive = False`. -/
def Recipe.init (time : ℚ) (input output : List IngredientT) : RecipeObj :=
  .mk time input output none false

/-- Overwrite the `_isExpensive` attribute. -/
def RecipeObj.setExpensiveTag : RecipeObj → Bool → RecipeObj
  | .mk t i o e _, b => .mk t i o e b

/-- `Recipe.addExpensiveMode` (item.py lines 259-271): `self._expensive` is
set to the argument and the argument's `_isExpensive` is set to `True` (the
`isinstance` guard always passes for `Recipe` arguments, which is what the
type enforces).  Returns the updated `(self, argument)` pair; `self` holds the
argument in its updated state, reflecting that in Python `self._expensive`
references the mutated object. -/
def addExpensiveMode (a b : RecipeObj) : RecipeObj × RecipeObj :=
  let b' := b.setExpensiveTag true
  match a with
  | .mk t i o _ tag => (.mk t i o (some b') tag, b')

/-! ## producer.py — the production rate model

The rate model only ever reads a recipe's `time`, `input` and `output`
attributes, so recipes appear here through the typed view `RecipeT`
(fields as documented on the `Recipe` class).  `Watt`/`Joule` wrappers are
modelled by their `.value` rationals: every arithmetic operation the model
performs on them acts on `.value` (see `SINumber._unitOrNumber`). -/

/-- Typed view of a `Recipe` as documented (item.py lines 188-216): crafting
time and ingredient lists.  (The linker's dynamically mis-ordered construction
of recipes is modelled separately by `makeRecipe` below.) -/
structure RecipeT where
  time : ℚ
  input : List IngredientT
  output : List IngredientT
  deriving DecidableEq, Repr

/-- `Recipe.getInputByName` (item.py lines 273-281): first input ingredient
whose product has the given name, else `None`. -/
def RecipeT.getInputByName (r : RecipeT) (name : String) : Option IngredientT :=
  r.input.find? (fun ing => ing.what.name == name)

/-- `Recipe.getOutputByName` (item.py lines 283-291). -/
def RecipeT.getOutputByName (r : RecipeT) (name : String) : Option IngredientT :=
  r.output.find? (fun ing => ing.what.name == name)

/-- `Module` (producer.py lines 5-54). -/
structure ModuleT where
  name : String
  tier : ℕ
  energy : ℚ
  speed : ℚ
  productivity : ℚ
  pollution : ℚ
  deriving DecidableEq, Repr

/-- `Producer` state (producer.py lines 57-94).  `modules` is the slot list
(`[None] * maxSlots` after `__init__`, entries replaceable by modules);
`energyUsage` and `drain` are the Watt values. -/
structure ProducerT where
  name : String
  craftSpeed : ℚ
  maxSlots : ℕ
  modules : List (Option ModuleT)
  energyUsage : ℚ
  drain : ℚ
  pollution : ℚ
  deriving DecidableEq, Repr

/-- `Producer.__init__` (producer.py lines 86-94): all module slots start
empty. -/
def Producer.init (name : String) (craftSpeed : ℚ) (maxSlots : ℕ)
    (energyUsage drain pollution : ℚ) : ProducerT :=
  ⟨name, craftSpeed, maxSlots, List.replicate maxSlots none, energyUsage, drain, pollution⟩

/-- `Producer._getMultiplier` (producer.py lines 104-110): `1.0` plus the
selected modifier of every installed module, rounded to 6 decimal digits.
The dynamic `getattr(m, category)` is shallowly embedded as the field
accessor `field`. -/
def getMultiplier (p : ProducerT) (field : ModuleT → ℚ) : ℚ :=
  pyRound6 (p.modules.foldl (fun acc mm => match mm with
    | some m => acc + field m
    | none => acc) 1)

/-- `Producer.speedMultiplier` (producer.py lines 112-114). -/
def speedMultiplier (p : ProducerT) : ℚ := getMultiplier p (·.speed)

/-- `Producer.energyMultiplier` (producer.py lines 116-118). -/
def energyMultiplier (p : ProducerT) : ℚ := getMultiplier p (·.energy)

/-- `Producer.productivityMultiplier` (producer.py lines 120-122). -/
def productivityMultiplier (p : ProducerT) : ℚ := getMultiplier p (·.productivity)

/-- `Producer.pollutionMultiplier` (producer.py lines 124-126). -/
def pollutionMultiplier (p : ProducerT) : ℚ := getMultiplier p (·.pollution)

/-- The dict returned by `Producer.craft`. -/
structure CraftResult where
  duration : ℚ
  output : List IngredientT
  energy : ℚ
  pollution : ℚ
  deriving DecidableEq, Repr

/-- `Producer.craft` (producer.py lines 136-156): craft time is
`recipe.time / (craftSpeed * speedMultiplier())`; energy is
`Joule((drain + energyUsage * energyMult).value) * craftTime` (Watt/Joule
arithmetic acts on the values); pollution is per-minute baseline times the
pollution and energy multipliers times `craftTime / 60`; the output is the
recipe's output list. -/
def craft (p : ProducerT) (r : RecipeT) : CraftResult :=
  let craftTime := r.time / (p.craftSpeed * speedMultiplier p)
  let energyMult := energyMultiplier p
  let energyConsumed := (p.drain + p.energyUsage * energyMult) * craftTime
  let pollutionCreated := p.pollution * pollutionMultiplier p * energyMult * (craftTime / 60)
  ⟨craftTime, r.output, energyConsumed, pollutionCreated⟩

/-- `Producer.productionRate` (producer.py lines 160-178):
`count * ingredient.count * productivityMultiplier() / craft(recipe)['duration']`
for the output ingredient found by name; `none` models the `AttributeError`
Python raises when `getOutputByName` returns `None`. -/
def productionRate (p : ProducerT) (r : RecipeT) (itemName : String) (count : ℚ) : Option ℚ :=
  (r.getOutputByName itemName).map (fun ing =>
    count * ing.count * productivityMultiplier p / (craft p r).duration)

/-- `Producer.consumptionRate` (producer.py lines 199-216):
`count * ingredient.count / craft(recipe)['duration']` for the input
ingredient found by name. -/
def consumptionRate (p : ProducerT) (r : RecipeT) (itemName : String) (count : ℚ) : Option ℚ :=
  (r.getInputByName itemName).map (fun ing =>
    count * ing.count / (craft p r).duration)

/-- The dict returned by `Producer.rates` (producer.py lines 236-270). -/
structure RatesReport where
  producers : ℚ
  consumed : List (IngredientT × Option ℚ)
  produced : List (IngredientT × Option ℚ)
  energy : ℚ
  pollution : ℚ
  deriving DecidableEq, Repr

/-- `Producer.rates` (producer.py lines 236-270): one craft is evaluated, a
consumption rate is recorded for every input ingredient and a production rate
for every output ingredient, and the energy (`Watt(energy).value / duration *
count`) and pollution (`pollution / duration * count`) totals are included
with the producer count. -/
def producerRates (p : ProducerT) (r : RecipeT) (count : ℚ) : RatesReport :=
  let craftResult := craft p r
  let duration := craftResult.duration
  { producers := count
    consumed := r.input.map (fun ing => (ing, consumptionRate p r ing.what.name count))
    produced := r.output.map (fun ing => (ing, productionRate p r ing.what.name count))
    energy := craftResult.energy / duration * count
    pollution := craftResult.pollution / duration * count }

/-- `Fuel` (fuel.py lines 3-26): a name and an energy content (Joule value). -/
structure FuelT where
  name : String
  energy : ℚ
  deriving DecidableEq, Repr

/-- The dict returned by `BurnerProducer.rates`: the base report plus the
`'fuel'` entry. -/
structure BurnerRatesReport where
  base : RatesReport
  fuel : ℚ
  deriving DecidableEq, Repr

/-- `BurnerProducer.rates` (producer.py lines 279-299): the base report
extended with `rateDict['energy'].value / fuel.energy.value`, the fuel units
burned per second. -/
def burnerRates (p : ProducerT) (r : RecipeT) (fuel : FuelT) (count : ℚ) : BurnerRatesReport :=
  let rateDict := producerRates p r count
  ⟨rateDict, rateDict.energy / fuel.energy⟩

/-- `Pumpjack.fieldCycleConsumptionRate` (producer.py lines 597-613):
`craftSpeed * speedMultiplier() / recipe.time * count`. -/
def fieldCycleConsumptionRate (p : ProducerT) (r : RecipeT) (count : ℚ) : ℚ :=
  p.craftSpeed * speedMultiplier p / r.time * count

/-- The report `Pumpjack.rates`'s docstring promises: the base report plus a
`'cycles'` entry. -/
structure PumpjackRatesReport where
  base : RatesReport
  cycles : ℚ
  deriving DecidableEq, Repr

/-- Model of `Pumpjack.rates` (producer.py lines 575-595).  The method
computes `rateDict = super().rates(recipe, count)` and assigns
`rateDict['cycles']`, but it has NO return statement, so the call evaluates
to Python `None`, modelled as `none`.  (The fall-through is exhibited on a
recipe with no ingredients, where the inherited body genuinely runs to
completion; for recipes with inputs or outputs the inherited `rates` body
would call the overridden `Pumpjack.productionRate`/`consumptionRate` with an
item name in place of the numeric yield/count argument and raise a
`TypeError` before returning.) -/
def pumpjackRates (p : ProducerT) (r : RecipeT) (count : ℚ) : Option PumpjackRatesReport :=
  let rateDict : PumpjackRatesReport :=
    ⟨producerRates p r count, fieldCycleConsumptionRate p r count⟩
  let _ := rateDict
  none

/-- The `'Pumpjack'` entry of the `base` producer table (producer.py line
626): `Pumpjack('Pumpjack', 1, 2, Watt('90k'), 0, 10)`. -/
def pumpjackBase : ProducerT := Producer.init "Pumpjack" 1 2 90000 0 10

/-! ## prototype.py — stage 3: `ProtoReader.makeRecipe` (lines 185-212)

`makeRecipe` resolves ingredient and result names against the combined
Item+Fluid `products` namespace and then calls
`item.Recipe(input_, output, table.energy_required)`.  Python is dynamically
typed, so the positional arguments land on `Recipe.__init__(time, input_,
output)` whatever their runtime types; the constructed object's fields are
therefore modelled with a dynamic value type `PyVal`. -/

/-- A dynamically typed Python value as it can appear in the fields of a
`Recipe` built by the linker: a number, a list of ingredients, or `None`. -/
inductive PyVal where
  | num (q : ℚ)
  | ings (l : List IngredientT)
  | pynone
  deriving DecidableEq, Repr

/-- A `Recipe` object as built by `Recipe.__init__` from dynamically typed
positional arguments: the three parameters are assigned to `self.time`,
`self.input`, `self.output` in order, with `_expensive = None` and
`_isExpensive = False` (item.py lines 206-212). -/
structure RecipeDyn where
  time : PyVal
  input : PyVal
  output : PyVal
  expensiveSlot : Option Unit
  isExpensiveTag : Bool
  deriving DecidableEq, Repr

/-- `Recipe.__init__` applied to dynamically typed positional arguments. -/
def Recipe.initPy (time input_ output : PyVal) : RecipeDyn :=
  ⟨time, input_, output, none, false⟩

/-- A raw ingredient entry of a recipe record: an ordered pair of product
name and count addressable positionally (`x[1]`, `x[2]`) or by field name
(`x.name`, `x.amount`); absent slots are Lua `nil`. -/
structure IngredientEntry where
  idx1 : Option String
  entryName : Option String
  idx2 : Option ℚ
  amount : Option ℚ
  deriving DecidableEq, Repr

/-- A raw entry of a recipe record's `results` list. -/
structure ResultEntry where
  entryName : String
  amount : Option ℚ
  probability : Option ℚ
  deriving DecidableEq, Repr

/-- The recipe-shaped fields of a recipe record (either the flat record
itself or a `normal`/`expensive` sub-table). -/
structure VariantTable where
  ingredients : List IngredientEntry
  result : Option String
  result_count : Option ℚ
  results : Option (List ResultEntry)
  energy_required : Option ℚ
  deriving DecidableEq, Repr

/-- A raw recipe record: its name, optional `normal`/`expensive` sub-tables,
and its own flat recipe fields (used when `normal` is absent, per
`table.normal or table`). -/
structure RecipeTable where
  name : String
  normal : Option VariantTable
  expensive : Option VariantTable
  flat : VariantTable
  deriving DecidableEq, Repr

/-- Errors `makeRecipe` can raise: a `KeyError` from looking an unknown
product name up in the `products` chain map, the `TypeError`/`KeyError` of
indexing a `nil` ingredient name, selecting an absent `expensive` sub-table,
or the `UnboundLocalError` when a record has neither `result` nor
`results`. -/
inductive LinkErr where
  | keyError (name : String)
  | nilEntryName
  | noExpensiveTable
  | unboundOutput
  deriving DecidableEq, Repr

/-- Name lookup in the combined Item+Fluid `products` namespace
(`prototypes.products`, a `ChainMap` of the two dicts). -/
def productsLookup : List (String × Product) → String → Option Product
  | [], _ => none
  | (k, v) :: t, name => if k = name then some v else productsLookup t name

/-- `ProtoReader.makeRecipe` (prototype.py lines 185-212).  The variant table
is `table.expensive` when `expensive` is requested, else
`table.normal or table`; each ingredient entry resolves
`products[x[1] or x.name]` with count `x[2] or x.amount`; the output is one
`Ingredient(products[table.result], table.result_count)` when `result` is
present, else the list of `Ingredient(products[x.name], x.amount,
x.probability)` over `results`.  The final construction is
`item.Recipe(input_, output, table.energy_required)` — the three arguments in
that source order, landing positionally on `Recipe.__init__(time, input_,
output)`. -/
def makeRecipe (products : List (String × Product)) (table : RecipeTable)
    (expensive : Bool) : Except LinkErr RecipeDyn := do
  let t ← if expensive then
      match table.expensive with
      | some t => Except.ok t
      | none => Except.error .noExpensiveTable
    else Except.ok (table.normal.getD table.flat)
  let input_ ← t.ingredients.mapM (fun x => do
    let nm ← match x.idx1.or x.entryName with
      | some nm => Except.ok nm
      | none => Except.error LinkErr.nilEntryName
    let prod ← match productsLookup products nm with
      | some prod => Except.ok prod
      | none => Except.error (LinkErr.keyError nm)
    Except.ok (mkIngredient prod (x.idx2.or x.amount) none))
  let output ← match t.result with
    | some rname =>
      match productsLookup products rname with
      | some prod => Except.ok [mkIngredient prod t.result_count none]
      | none => Except.error (LinkErr.keyError rname)
    | none =>
      match t.results with
      | some rs => rs.mapM (fun x => do
          let prod ← match productsLookup products x.entryName with
            | some prod => Except.ok prod
            | none => Except.error (LinkErr.keyError x.entryName)
          Except.ok (mkIngredient prod x.amount x.probability))
      | none => Except.error LinkErr.unboundOutput
  Except.ok (Recipe.initPy (.ings input_) (.ings output)
    (match t.energy_required with | some q => .num q | none => .pynone))

/-! ## prototype.py — stage 1b pruning (initialize, lines 263-272)

```
for name, subgroup in dict(subgroups).items():
  if not len(subgroup):
    del groups[subgroup.parent.name][subgroup.name]
    del subgroups[subgroup.name]
for name, group in dict(groups).items():
  if not len(group):
    del groups[name]
```

Groups and subgroups are modelled by their pruning-relevant state: each group
carries the names of its child subgroups, each subgroup its parent group's
name and the names of its child items.  The mappings are association lists in
insertion order.  `subgroup.parent.name` on a `None` parent raises
`AttributeError` and `del d[k]` on an absent key raises `KeyError`; both are
modelled as `Except` errors. -/

/-- Pruning-relevant state of a top-level `ItemGroup`: its `order` and the
keys of its `_children` mapping (subgroup names). -/
structure GroupT where
  order : Option String
  children : List String
  deriving DecidableEq, Repr

/-- Pruning-relevant state of a subgroup `ItemGroup`: its parent group's name
(`None` for a still-deferred placeholder) and the keys of its `_children`
mapping (item names). -/
structure SubgroupT where
  parent : Option String
  children : List String
  deriving DecidableEq, Repr

/-- First-match lookup in an association list (Python `d[k]`). -/
def lookupKey {α : Type} : List (String × α) → String → Option α
  | [], _ => none
  | (k, v) :: t, key => if k = key then some v else lookupKey t key

/-- Python `del d[k]` (keys are unique in a dict, so removing every entry
with the key is the same as removing the one entry). -/
def eraseKey {α : Type} : List (String × α) → String → List (String × α)
  | [], _ => []
  | e :: t, key => if e.1 = key then eraseKey t key else e :: eraseKey t key

/-- In-place update of the value stored under a key (mutating the object a
dict maps `key` to). -/
def updateKey {α : Type} (l : List (String × α)) (key : String) (v : α) :
    List (String × α) :=
  l.map (fun e => if e.1 = key then (key, v) else e)

/-- Errors the subgroup-pruning loop can raise: `AttributeError` from
`subgroup.parent.name` on a parentless placeholder, or `KeyError` from
deleting a missing entry. -/
inductive PruneErr where
  | attrError
  | keyError
  deriving DecidableEq, Repr

/-- The linker state the pruning stage operates on. -/
structure PruneState where
  groups : List (String × GroupT)
  subgroups : List (String × SubgroupT)
  deriving DecidableEq, Repr

/-- One iteration of the subgroup-pruning loop (prototype.py lines 264-268)
on a snapshot entry `e`: an empty subgroup is deleted from its parent group's
children mapping and from the subgroups mapping. -/
def subgroupPruneStep (st : PruneState) (e : String × SubgroupT) :
    Except PruneErr PruneState :=
  if e.2.children.length = 0 then
    match e.2.parent with
    | none => .error .attrError
    | some pname =>
      match lookupKey st.groups pname with
      | none => .error .keyError
      | some g =>
        if e.1 ∈ g.children then
          .ok ⟨updateKey st.groups pname { g with children := g.children.filter (fun c => c ≠ e.1) },
               eraseKey st.subgroups e.1⟩
        else .error .keyError
  else .ok st

/-- Iterate the subgroup-pruning loop body over the remaining snapshot
entries, threading the mutated state and stopping at the first raised
exception. -/
def pruneSubgroupsAux : PruneState → List (String × SubgroupT) → Except PruneErr PruneState
  | st, [] => .ok st
  | st, e :: t =>
    match subgroupPruneStep st e with
    | .error err => .error err
    | .ok st1 => pruneSubgroupsAux st1 t

/-- The subgroup-pruning loop: iterate the snapshot `dict(subgroups).items()`
(the initial subgroups list), threading the mutated state. -/
def pruneSubgroups (groups : List (String × GroupT))
    (subgroups : List (String × SubgroupT)) : Except PruneErr PruneState :=
  pruneSubgroupsAux ⟨groups, subgroups⟩ subgroups

/-- One iteration of the group-pruning loop (prototype.py lines 269-272) on a
snapshot entry: an empty group is deleted from the groups mapping. -/
def groupPruneStep (acc : List (String × GroupT)) (e : String × GroupT) :
    List (String × GroupT) :=
  if e.2.children.length = 0 then eraseKey acc e.1 else acc

/-- The group-pruning loop: iterate the snapshot `dict(groups).items()` of
the post-subgroup-pruning groups mapping, deleting empty groups. -/
def pruneGroups (groups : List (String × GroupT)) : List (String × GroupT) :=
  groups.foldl groupPruneStep groups

/-- Stage 1b of `initialize` (prototype.py lines 263-272): prune empty
subgroups first, then prune empty top-level groups. -/
def initializePrune (groups : List (String × GroupT))
    (subgroups : List (String × SubgroupT)) :
    Except PruneErr (List (String × GroupT) × List (String × SubgroupT)) :=
  match pruneSubgroups groups subgroups with
  | .error e => .error e
  | .ok st => .ok (pruneGroups st.groups, st.subgroups)

/-! ## Concrete fixtures used by witnesses and counterexamples -/

/-- A concrete raw-resource item. -/
def ironOre : Product := .item ⟨"iron-ore", "item", "raw-resource", "a"⟩

/-- A concrete crafted item. -/
def ironPlate : Product := .item ⟨"iron-plate", "item", "raw-material", "b"⟩

/-- A concrete combined Item+Fluid namespace. -/
def demoProducts : List (String × Product) :=
  [("iron-ore", ironOre), ("iron-plate", ironPlate)]

/-- A concrete recipe record in the flat single-`result` form, with one
ingredient addressed by field name and `energy_required = 3.2`. -/
def ironPlateTable : RecipeTable :=
  ⟨"iron-plate", none, none,
   ⟨[⟨none, some "iron-ore", none, some 1⟩], some "iron-plate", none, none, some (16/5)⟩⟩

/-- The specification scenario's recipe: `time = 2.0`, one input
`Ingredient(count=2)`, one output `Ingredient(count=1)`. -/
def scenarioRecipe : RecipeT := ⟨2, [⟨ironOre, 2, 1⟩], [⟨ironPlate, 1, 1⟩]⟩

/-- The specification scenario's producer: `craftSpeed = 1.0`, no module
slots, `activeDraw = 60`, `drain = 0`, `pollutionBaseline = 0`. -/
def scenarioProducer : ProducerT := Producer.init "Assembling machine" 1 0 60 0 0

/-- A concrete recipe object. -/
def recipeA : RecipeObj := Recipe.init 1 [] []

/-- A concrete recipe object. -/
def recipeB : RecipeObj := Recipe.init 2 [] []

/-- A concrete recipe object. -/
def recipeC : RecipeObj := Recipe.init 3 [] []

/-- A concrete one-group, one-subgroup catalog in which the subgroup's only
item was hidden and was therefore never attached: the subgroup is empty. -/
def demoGroups : List (String × GroupT) := [("intermediates", ⟨some "c", ["fluid-recipes"]⟩)]

/-- See `demoGroups`. -/
def demoSubgroups : List (String × SubgroupT) := [("fluid-recipes", ⟨some "intermediates", []⟩)]

/-- The state of `demoGroups`/`demoSubgroups` after the subgroup-pruning
loop: the empty subgroup is gone from both mappings. -/
def demoMid : PruneState := ⟨[("intermediates", ⟨some "c", []⟩)], []⟩

/-! # Theorems -/

/-! ## Shared helper lemmas -/

theorem foldl_skip_none (f : ModuleT → ℚ) :
    ∀ (l : List (Option ModuleT)) (q : ℚ), (∀ mm ∈ l, mm = none) →
      l.foldl (fun acc mm => match mm with
        | some m => acc + f m
        | none => acc) q = q := by
  intro l
  induction l with
  | nil => intro q _; rfl
  | cons hd tl ih =>
    intro q h
    have hhd : hd = none := h hd (List.mem_cons_self hd tl)
    subst hhd
    exact ih q (fun mm hm => h mm (List.mem_cons_of_mem _ hm))

theorem pyRound6_one : pyRound6 1 = 1 := by
  norm_num [pyRound6, pyRoundHalfEven]

theorem productivityMultiplier_no_modules (p : ProducerT)
    (h : ∀ mm ∈ p.modules, mm = none) : productivityMultiplier p = 1 := by
  unfold productivityMultiplier getMultiplier
  rw [foldl_skip_none _ p.modules 1 h]
  exact pyRound6_one

/-! ## Claim C1 — stage-3 recipe construction -/

/-- C1 (code_bug evaluation): for the concrete iron-plate record,
`makeRecipe` resolves the ingredient and the single named result correctly,
but the final call `item.Recipe(input_, output, table.energy_required)` lands
positionally on `Recipe.__init__(time, input_, output)`, so the built
Recipe's `time` field holds the resolved ingredient list (not the declared
`energy_required = 3.2`), its `input` field holds the outputs, and its
`output` field holds the energy number. -/
theorem makeRecipe_transposes_arguments :
    makeRecipe demoProducts ironPlateTable false =
      .ok (Recipe.initPy (.ings [⟨ironOre, 1, 1⟩]) (.ings [⟨ironPlate, 1, 1⟩])
        (.num (16/5))) ∧
    (Recipe.initPy (.ings [⟨ironOre, 1, 1⟩]) (.ings [⟨ironPlate, 1, 1⟩])
        (.num (16/5))).time ≠ .num (16/5) := by
  refine ⟨rfl, ?_⟩
  simp [Recipe.initPy]

/-! ## Claim C3 — production and consumption rate formulas and the scenario -/

/-- C3: for a producer with no installed modules, `productionRate` is
`count * ingredient.count * productivityMultiplier() / duration` over the
matching output ingredient and `consumptionRate` is
`count * ingredient.count / duration` over the matching input ingredient
(with the no-module productivity multiplier equal to 1); in the
specification's scenario (`time = 2.0`, input count 2, output count 1,
`craftSpeed = 1.0`, no modules) the craft duration is 2.0, the output's
production rate is 0.5/s and the input's consumption rate is 1.0/s. -/
theorem rate_formulas_and_scenario :
    (∀ (p : ProducerT) (r : RecipeT) (nm : String) (ing : IngredientT) (n : ℚ),
        (∀ mm ∈ p.modules, mm = none) →
        r.getOutputByName nm = some ing →
        productionRate p r nm n =
          some (n * ing.count * productivityMultiplier p / (craft p r).duration)) ∧
    (∀ (p : ProducerT) (r : RecipeT) (nm : String) (ing : IngredientT) (n : ℚ),
        (∀ mm ∈ p.modules, mm = none) →
        r.getInputByName nm = some ing →
        consumptionRate p r nm n = some (n * ing.count / (craft p r).duration)) ∧
    (∀ p : ProducerT, (∀ mm ∈ p.modules, mm = none) → productivityMultiplier p = 1) ∧
    (craft scenarioProducer scenarioRecipe).duration = 2 ∧
    productionRate scenarioProducer scenarioRecipe "iron-plate" 1 = some (1/2) ∧
    consumptionRate scenarioProducer scenarioRecipe "iron-ore" 1 = some 1 := by
  have hmods : ∀ mm ∈ scenarioProducer.modules, mm = none := by
    simp [scenarioProducer, Producer.init]
  have hspeed : speedMultiplier scenarioProducer = 1 := by
    unfold speedMultiplier getMultiplier
    rw [foldl_skip_none _ scenarioProducer.modules 1 hmods]
    exact pyRound6_one
  have hmult : productivityMultiplier scenarioProducer = 1 :=
    productivityMultiplier_no_modules _ hmods
  have hcs : scenarioProducer.craftSpeed = 1 := rfl
  have hdur : (craft scenarioProducer scenarioRecipe).duration = 2 := by
    show scenarioRecipe.time / (scenarioProducer.craftSpeed * speedMultiplier scenarioProducer) = 2
    rw [hspeed, hcs]
    norm_num [scenarioRecipe]
  refine ⟨?_, ?_, productivityMultiplier_no_modules, hdur, ?_, ?_⟩
  · intro p r nm ing n _ hfound
    unfold productionRate
    rw [hfound]
    rfl
  · intro p r nm ing n _ hfound
    unfold consumptionRate
    rw [hfound]
    rfl
  · unfold productionRate
    rw [show scenarioRecipe.getOutputByName "iron-plate" = some ⟨ironPlate, 1, 1⟩ from rfl]
    simp only [Option.map_some']
    rw [hmult, hdur]
    norm_num
  · unfold consumptionRate
    rw [show scenarioRecipe.getInputByName "iron-ore" = some ⟨ironOre, 2, 1⟩ from rfl]
    simp only [Option.map_some']
    rw [hdur]
    norm_num

/-- Witness for C3: the general production-rate formula applied at the
scenario producer, recipe and output. -/
theorem rate_formulas_and_scenario_witness :
    productionRate scenarioProducer scenarioRecipe "iron-plate" 1 =
      some (1 * (⟨ironPlate, 1, 1⟩ : IngredientT).count *
        productivityMultiplier scenarioProducer /
        (craft scenarioProducer scenarioRecipe).duration) :=
  rate_formulas_and_scenario.1 scenarioProducer scenarioRecipe "iron-plate"
    ⟨ironPlate, 1, 1⟩ 1 (by simp [scenarioProducer, Producer.init]) (by rfl)

/-! ## Claim C4 — the craft operation -/

/-- C4: for every producer and recipe, `craft` returns duration
`recipe.time / (craftSpeed * speedMultiplier)`, the recipe's declared
outputs, energy `(drain + activeDraw * energyMultiplier) * duration`, and
pollution `pollutionBaseline * pollutionMultiplier * energyMultiplier *
(duration / 60)`. -/
theorem craft_spec (p : ProducerT) (r : RecipeT) :
    craft p r =
      ⟨r.time / (p.craftSpeed * speedMultiplier p),
       r.output,
       (p.drain + p.energyUsage * energyMultiplier p) *
         (r.time / (p.craftSpeed * speedMultiplier p)),
       p.pollution * pollutionMultiplier p * energyMultiplier p *
         ((r.time / (p.craftSpeed * speedMultiplier p)) / 60)⟩ := rfl

/-! ## Claim C5 — the rates report -/

/-- C5 (code_bug evaluation): `Pumpjack.rates` has no return statement, so it
evaluates to `None` instead of the aggregated report — here exhibited on the
`base` table's Pumpjack and a recipe with no ingredients, where the method
body runs to completion. -/
theorem pumpjack_rates_returns_none :
    pumpjackRates pumpjackBase ⟨1, [], []⟩ 1 = none := rfl

/-! ## Claim C6 — expensive-variant asymmetry -/

/-- C6: attaching `b` as the expensive variant of `a` makes `a`'s
expensive-variant slot hold `b` (in its updated state) and marks `b` as a
variant, while `b`'s own slot stays unpopulated (given it was unpopulated
before, as for every freshly constructed Recipe) and `a` stays unmarked; `b`'s
recipe data is untouched. -/
theorem addExpensiveMode_asymmetric (a b : RecipeObj)
    (ha : a.isExpensive = false) (hb : b.expensive = none) :
    (addExpensiveMode a b).1.expensive = some (addExpensiveMode a b).2 ∧
    (addExpensiveMode a b).2.isExpensive = true ∧
    (addExpensiveMode a b).2.expensive = none ∧
    (addExpensiveMode a b).1.isExpensive = false ∧
    (addExpensiveMode a b).2.time = b.time ∧
    (addExpensiveMode a b).2.input = b.input ∧
    (addExpensiveMode a b).2.output = b.output := by
  cases a with
  | mk ta ia oa ea tga =>
    cases b with
    | mk tb ib ob eb tgb =>
      simp only [RecipeObj.isExpensive] at ha
      simp only [RecipeObj.expensive] at hb
      subst ha hb
      simp [addExpensiveMode, RecipeObj.setExpensiveTag, RecipeObj.expensive,
        RecipeObj.isExpensive, RecipeObj.time, RecipeObj.input, RecipeObj.output]

/-- Witness for C6 at two concrete freshly constructed recipes. -/
theorem addExpensiveMode_asymmetric_witness :
    (addExpensiveMode recipeA recipeB).1.expensive = some (addExpensiveMode recipeA recipeB).2 ∧
    (addExpensiveMode recipeA recipeB).2.isExpensive = true ∧
    (addExpensiveMode recipeA recipeB).2.expensive = none ∧
    (addExpensiveMode recipeA recipeB).1.isExpensive = false ∧
    (addExpensiveMode recipeA recipeB).2.time = recipeB.time ∧
    (addExpensiveMode recipeA recipeB).2.input = recipeB.input ∧
    (addExpensiveMode recipeA recipeB).2.output = recipeB.output :=
  addExpensiveMode_asymmetric recipeA recipeB rfl rfl

/-! ## Claim C7 — depth of variant nesting -/

/-- Counterexample to C7 as stated: `addExpensiveMode` enforces no nesting
restriction.  Attaching `recipeC` to `recipeB`, then attaching the result to
`recipeA`, yields — reachable as `recipeA`'s attached expensive variant — a
recipe that is itself an expensive variant AND has a populated
expensive-variant slot of its own. -/
theorem variant_nesting_counterexample :
    (addExpensiveMode recipeA (addExpensiveMode recipeB recipeC).1).1.expensive =
      some (addExpensiveMode recipeA (addExpensiveMode recipeB recipeC).1).2 ∧
    (addExpensiveMode recipeA (addExpensiveMode recipeB recipeC).1).2.isExpensive = true ∧
    (addExpensiveMode recipeA (addExpensiveMode recipeB recipeC).1).2.expensive ≠ none := by
  refine ⟨rfl, rfl, ?_⟩
  simp [recipeA, recipeB, recipeC, Recipe.init, addExpensiveMode,
    RecipeObj.setExpensiveTag, RecipeObj.expensive]

/-- Amended C7: the attach operation itself checks nothing, but whenever the
recipe being attached has an unpopulated variant slot — as does every freshly
built expensive variant in the linker, the operation's only caller — the
result has exactly one level of nesting: the attached variant's slot remains
unpopulated. -/
theorem addExpensiveMode_single_level (a b : RecipeObj) (hb : b.expensive = none) :
    (addExpensiveMode a b).1.expensive = some (addExpensiveMode a b).2 ∧
    (addExpensiveMode a b).2.expensive = none := by
  cases a with
  | mk ta ia oa ea tga =>
    cases b with
    | mk tb ib ob eb tgb =>
      simp only [RecipeObj.expensive] at hb
      subst hb
      simp [addExpensiveMode, RecipeObj.setExpensiveTag, RecipeObj.expensive]

/-- Witness for the amended C7. -/
theorem addExpensiveMode_single_level_witness :
    (addExpensiveMode recipeC recipeA).1.expensive = some (addExpensiveMode recipeC recipeA).2 ∧
    (addExpensiveMode recipeC recipeA).2.expensive = none :=
  addExpensiveMode_single_level recipeC recipeA rfl

/-! ## Claim C9 — parse error classification -/

/-- C9 (code_bug evaluation): on the empty input string,
`SINumber.__init__` raises an uncaught `IndexError` at the base-symbol strip
`units[-1]` (util.py line 142) — not the empty-input `ValueError` — while an
input that becomes empty only after the base symbol is stripped does reach
the intended `ValueError('units string cannot be empty')`. -/
theorem siNumber_empty_string_raises_index_error :
    siNumberInitStr [] 'W' = .error .indexError ∧
    siNumberInitStr ['W'] 'W' = .error .emptyValueError := ⟨rfl, rfl⟩

/-! ## Claim C10 — Fluid heat-capacity construction -/

/-- C10: constructing a `Fluid` with a numeric-with-suffix string heat
capacity converts it through `Joule` parsing, while passing an
already-constructed `Joule` raises `TypeError` — despite the declared
`Union[Joule, str]`, only the string form is accepted. -/
theorem fluid_heat_capacity_constructor :
    (∀ (j : ℚ) (n o : String) (td tm : ℚ),
        Fluid.make n td tm (.joule j) o = .error .typeError) ∧
    (∀ (n o : String) (td tm : ℚ) (s : List Char) (p : SIParsed),
        siNumberInitStr s 'J' = .ok p →
        Fluid.make n td tm (.str s) o = .ok ⟨n, td, tm, p.value, o⟩) := by
  refine ⟨fun _ _ _ _ _ => rfl, fun n o td tm s p h => ?_⟩
  simp [Fluid.make, h]

/-- Witness for C10: a Joule argument is rejected; the string `"2k"` parses
to a heat capacity of 2000 J. -/
theorem fluid_heat_capacity_constructor_witness :
    Fluid.make "water" 15 100 (.joule 1000) "a" = .error .typeError ∧
    Fluid.make "water" 15 100 (.str ['2', 'k']) "a" = .ok ⟨"water", 15, 100, 2000, "a"⟩ :=
  ⟨fluid_heat_capacity_constructor.1 1000 "water" "a" 15 100,
   fluid_heat_capacity_constructor.2 "water" "a" 15 100 ['2', 'k']
     ⟨2000, some 'k'⟩ (by
       obtain ⟨v, h1, h2⟩ : ∃ v, siNumberInitStr ['2', 'k'] 'J' = .ok ⟨v, some 'k'⟩ ∧ v = 2000 :=
         ⟨_, rfl, by norm_num [digitsToNat, show ('2').toNat = 50 from rfl]⟩
       rw [h1, h2])⟩

/-! ## Claim C2 — stage-1b pruning: helper lemmas -/

theorem lookupKey_eraseKey_self {α : Type} (l : List (String × α)) (k : String) :
    lookupKey (eraseKey l k) k = none := by
  induction l with
  | nil => rfl
  | cons e t ih =>
    by_cases he : e.1 = k
    · simpa [eraseKey, he] using ih
    · simpa [eraseKey, he, lookupKey] using ih

theorem lookupKey_eraseKey_ne {α : Type} (l : List (String × α)) (k k' : String)
    (h : k' ≠ k) : lookupKey (eraseKey l k) k' = lookupKey l k' := by
  induction l with
  | nil => rfl
  | cons e t ih =>
    by_cases he' : e.1 = k'
    · simp [eraseKey, lookupKey, he', h]
    · by_cases he : e.1 = k
      · simpa [eraseKey, he, lookupKey, h.symm, he'] using ih
      · simpa [eraseKey, he, lookupKey, he'] using ih

theorem lookupKey_mem {α : Type} {l : List (String × α)} {k : String} {v : α}
    (h : lookupKey l k = some v) : (k, v) ∈ l := by
  induction l with
  | nil => exact absurd h (by simp [lookupKey])
  | cons e t ih =>
    obtain ⟨a, b⟩ := e
    simp only [lookupKey] at h
    by_cases he : a = k
    · rw [if_pos he] at h
      injection h with hbv
      subst he
      subst hbv
      exact List.mem_cons_self _ _
    · rw [if_neg he] at h
      exact List.mem_cons_of_mem _ (ih h)

theorem mem_eraseKey {α : Type} {l : List (String × α)} {k : String}
    {e : String × α} (he : e ∈ eraseKey l k) : e ∈ l := by
  induction l with
  | nil => exact absurd he (by simp [eraseKey])
  | cons x t ih =>
    by_cases hx : x.1 = k
    · rw [eraseKey, if_pos hx] at he
      exact List.mem_cons_of_mem _ (ih he)
    · rw [eraseKey, if_neg hx] at he
      rcases List.mem_cons.mp he with heq | hmem
      · rw [heq]; exact List.mem_cons_self _ _
      · exact List.mem_cons_of_mem _ (ih hmem)

theorem mem_updateKey {α : Type} {l : List (String × α)} {k : String} {v : α}
    {e : String × α} (he : e ∈ updateKey l k v) :
    e = (k, v) ∨ (e ∈ l ∧ e.1 ≠ k) := by
  unfold updateKey at he
  obtain ⟨e0, he0, heq⟩ := List.mem_map.mp he
  by_cases h : e0.1 = k
  · left
    rw [← heq]
    simp [h]
  · right
    simp only [h, if_false] at heq
    rw [← heq]
    exact ⟨he0, h⟩

/-- The subgroup-pruning step preserves "subgroup `nm` is gone and no group
entry stored under key `pname` has `nm` among its children". -/
theorem subgroupPruneStep_preserves (nm pname : String) (st st' : PruneState)
    (e : String × SubgroupT) (hstep : subgroupPruneStep st e = .ok st')
    (h1 : lookupKey st.subgroups nm = none)
    (h2 : ∀ g, (pname, g) ∈ st.groups → nm ∉ g.children) :
    lookupKey st'.subgroups nm = none ∧
    ∀ g, (pname, g) ∈ st'.groups → nm ∉ g.children := by
  unfold subgroupPruneStep at hstep
  split at hstep
  · split at hstep
    · exact Except.noConfusion hstep
    · rename_i pname' hparent
      split at hstep
      · exact Except.noConfusion hstep
      · rename_i g hlook
        split at hstep
        · rename_i hmemchild
          injection hstep with hst'
          subst hst'
          constructor
          · by_cases h : nm = e.1
            · rw [h]; exact lookupKey_eraseKey_self _ _
            · rw [lookupKey_eraseKey_ne _ _ _ h]; exact h1
          · intro g' hg' hchild
            rcases mem_updateKey hg' with heq | ⟨hmem, _⟩
            · have hgn : g' = { g with children := g.children.filter (fun c => c ≠ e.1) } :=
                congrArg Prod.snd heq
              have hpn : pname = pname' := congrArg Prod.fst heq
              rw [hgn] at hchild
              have : (pname, g) ∈ st.groups := by
                rw [hpn]; exact lookupKey_mem hlook
              exact h2 g this (List.mem_of_mem_filter hchild)
            · exact h2 g' hmem hchild
        · exact Except.noConfusion hstep
  · injection hstep with hst'
    subst hst'
    exact ⟨h1, h2⟩

/-- The whole subgroup-pruning loop preserves the property of
`subgroupPruneStep_preserves`. -/
theorem pruneAux_preserves (nm pname : String) :
    ∀ (l : List (String × SubgroupT)) (st st' : PruneState),
    pruneSubgroupsAux st l = .ok st' →
    lookupKey st.subgroups nm = none →
    (∀ g, (pname, g) ∈ st.groups → nm ∉ g.children) →
    lookupKey st'.subgroups nm = none ∧
    ∀ g, (pname, g) ∈ st'.groups → nm ∉ g.children := by
  intro l
  induction l with
  | nil =>
    intro st st' hfold h1 h2
    injection hfold with hst'
    subst hst'
    exact ⟨h1, h2⟩
  | cons e t ih =>
    intro st st' hfold h1 h2
    unfold pruneSubgroupsAux at hfold
    cases hstep : subgroupPruneStep st e with
    | error err =>
      rw [hstep] at hfold
      exact Except.noConfusion hfold
    | ok st1 =>
      rw [hstep] at hfold
      have hP := subgroupPruneStep_preserves nm pname st st1 e hstep h1 h2
      exact ih st1 st' hfold hP.1 hP.2

/-- Once the subgroup-pruning loop has processed an empty subgroup entry with
a registered parent, that subgroup is gone from the subgroups mapping and
from any group stored under the parent's key, for good. -/
theorem pruneAux_establishes (nm pname : String) (sg : SubgroupT) :
    ∀ (l : List (String × SubgroupT)) (st st' : PruneState),
    pruneSubgroupsAux st l = .ok st' →
    (nm, sg) ∈ l → sg.children = [] → sg.parent = some pname →
    lookupKey st'.subgroups nm = none ∧
    ∀ g, (pname, g) ∈ st'.groups → nm ∉ g.children := by
  intro l
  induction l with
  | nil => intro st st' _ hmem; exact absurd hmem (List.not_mem_nil _)
  | cons e t ih =>
    intro st st' hfold hmem hempty hparent
    unfold pruneSubgroupsAux at hfold
    cases hstep : subgroupPruneStep st e with
    | error err =>
      rw [hstep] at hfold
      exact Except.noConfusion hfold
    | ok st1 =>
      rw [hstep] at hfold
      rcases List.mem_cons.mp hmem with heq | hmemt
      · rw [← heq] at hstep
        unfold subgroupPruneStep at hstep
        split at hstep
        · split at hstep
          · rename_i hpar
            rw [hparent] at hpar
            exact Option.noConfusion hpar
          · rename_i pname' hpar
            rw [hparent] at hpar
            injection hpar with hpn
            subst hpn
            split at hstep
            · exact Except.noConfusion hstep
            · rename_i g hlook
              split at hstep
              · rename_i hmemchild
                injection hstep with hst1
                subst hst1
                refine pruneAux_preserves nm pname t _ st' hfold ?_ ?_
                · exact lookupKey_eraseKey_self _ _
                · intro g' hg' hchild
                  rcases mem_updateKey hg' with hgeq | ⟨_, hne⟩
                  · have : g' = { g with children := g.children.filter (fun c => c ≠ nm) } :=
                      congrArg Prod.snd hgeq
                    rw [this] at hchild
                    simp at hchild
                  · exact absurd rfl hne
              · exact Except.noConfusion hstep
        · rename_i hcond
          exact absurd (by simp [hempty]) hcond
      · exact ih st1 st' hfold hmemt hempty hparent

/-- An entry key that resolves to `none` stays `none` through the
group-pruning fold (the fold only erases entries). -/
theorem groupPruneFold_none (k : String) :
    ∀ (l acc : List (String × GroupT)), lookupKey acc k = none →
    lookupKey (List.foldl groupPruneStep acc l) k = none := by
  intro l
  induction l with
  | nil => intro acc h; exact h
  | cons e t ih =>
    intro acc h
    rw [List.foldl_cons]
    refine ih _ ?_
    unfold groupPruneStep
    split
    · by_cases hk : k = e.1
      · rw [hk]; exact lookupKey_eraseKey_self _ _
      · rw [lookupKey_eraseKey_ne _ _ _ hk]; exact h
    · exact h

/-- Every group entry that appears in the snapshot with an empty children
list is absent after the group-pruning fold. -/
theorem groupPrune_removes (k : String) (G : GroupT) :
    ∀ (l acc : List (String × GroupT)), (k, G) ∈ l → G.children = [] →
    lookupKey (List.foldl groupPruneStep acc l) k = none := by
  intro l
  induction l with
  | nil => intro acc hmem; exact absurd hmem (List.not_mem_nil _)
  | cons e t ih =>
    intro acc hmem hempty
    rw [List.foldl_cons]
    rcases List.mem_cons.mp hmem with heq | hmemt
    · refine groupPruneFold_none k t _ ?_
      rw [← heq]
      unfold groupPruneStep
      rw [if_pos (by simp [hempty])]
      exact lookupKey_eraseKey_self _ _
    · exact ih _ hmemt hempty

/-- The group-pruning fold only ever deletes entries. -/
theorem mem_groupPruneFold {e : String × GroupT} :
    ∀ (l acc : List (String × GroupT)),
    e ∈ List.foldl groupPruneStep acc l → e ∈ acc := by
  intro l
  induction l with
  | nil => intro acc h; exact h
  | cons x t ih =>
    intro acc h
    rw [List.foldl_cons] at h
    have := ih _ h
    unfold groupPruneStep at this
    split at this
    · exact mem_eraseKey this
    · exact this

/-- C2: whenever the subgroup-pruning loop completes (state `mid`), every
subgroup entry whose children were all removed (empty children list) is
absent from the resulting subgroups mapping and from its parent group's
children mapping, and every group left with zero surviving children after
subgroup pruning is absent from the final groups mapping; `initializePrune`
runs the subgroup loop first and the group loop second on its result. -/
theorem pruning_correct
    (groups : List (String × GroupT)) (subgroups : List (String × SubgroupT))
    (mid : PruneState) (nm pname : String) (sg : SubgroupT)
    (hrun : pruneSubgroups groups subgroups = .ok mid)
    (hmem : (nm, sg) ∈ subgroups)
    (hempty : sg.children = [])
    (hparent : sg.parent = some pname) :
    initializePrune groups subgroups = .ok (pruneGroups mid.groups, mid.subgroups) ∧
    lookupKey mid.subgroups nm = none ∧
    (∀ g, lookupKey (pruneGroups mid.groups) pname = some g → nm ∉ g.children) ∧
    (∀ gname G, lookupKey mid.groups gname = some G → G.children = [] →
      lookupKey (pruneGroups mid.groups) gname = none) := by
  have hP := pruneAux_establishes nm pname sg subgroups ⟨groups, subgroups⟩ mid
    (by unfold pruneSubgroups at hrun; exact hrun) hmem hempty hparent
  refine ⟨?_, hP.1, ?_, ?_⟩
  · unfold initializePrune
    rw [hrun]
  · intro g hg
    have hmemg : (pname, g) ∈ pruneGroups mid.groups := lookupKey_mem hg
    have hmemmid : (pname, g) ∈ mid.groups := mem_groupPruneFold _ _ hmemg
    exact hP.2 g hmemmid
  · intro gname G hlook hemptyG
    exact groupPrune_removes gname G mid.groups mid.groups (lookupKey_mem hlook) hemptyG

/-- Witness for C2: the concrete one-group catalog whose only subgroup lost
its only (hidden) item. -/
theorem pruning_correct_witness :
    initializePrune demoGroups demoSubgroups =
      .ok (pruneGroups demoMid.groups, demoMid.subgroups) ∧
    lookupKey demoMid.subgroups "fluid-recipes" = none ∧
    (∀ g, lookupKey (pruneGroups demoMid.groups) "intermediates" = some g →
      "fluid-recipes" ∉ g.children) ∧
    (∀ gname G, lookupKey demoMid.groups gname = some G → G.children = [] →
      lookupKey (pruneGroups demoMid.groups) gname = none) :=
  pruning_correct demoGroups demoSubgroups demoMid "fluid-recipes" "intermediates"
    ⟨some "intermediates", []⟩ (by rfl) (by simp [demoSubgroups]) rfl rfl

/-! ## Claim C8 — round-trip formatting: helper lemmas -/

theorem natLog10F_spec : ∀ (fuel n : ℕ), 1 ≤ n → n ≤ fuel →
    10 ^ natLog10F fuel n ≤ n ∧ n < 10 ^ (natLog10F fuel n + 1) := by
  intro fuel
  induction fuel with
  | zero => intro n h1 h2; omega
  | succ f ih =>
    intro n h1 h2
    by_cases hn : n < 10
    · unfold natLog10F
      rw [if_pos hn]
      simpa using ⟨h1, hn⟩
    · have h10 : 10 ≤ n := by omega
      have hd1 : 1 ≤ n / 10 := (Nat.le_div_iff_mul_le (by norm_num)).mpr (by omega)
      have hdf : n / 10 ≤ f := by
        have := Nat.div_lt_self (by omega : 0 < n) (by norm_num : 1 < 10)
        omega
      obtain ⟨ihl, ihu⟩ := ih (n / 10) hd1 hdf
      unfold natLog10F
      rw [if_neg hn]
      constructor
      · calc 10 ^ (natLog10F f (n / 10) + 1) = 10 ^ natLog10F f (n / 10) * 10 := by ring
          _ ≤ n / 10 * 10 := Nat.mul_le_mul_right 10 ihl
          _ = 10 * (n / 10) := by ring
          _ ≤ n := Nat.mul_div_le n 10
      · calc n < 10 * (n / 10) + 10 := Nat.lt_mul_div_succ n (by norm_num)
          _ = 10 * (n / 10 + 1) := by ring
          _ ≤ 10 * 10 ^ (natLog10F f (n / 10) + 1) := Nat.mul_le_mul_left 10 (by omega)
          _ = 10 ^ (natLog10F f (n / 10) + 1 + 1) := by ring

theorem natLog10_spec (n : ℕ) (h : 1 ≤ n) :
    10 ^ natLog10 n ≤ n ∧ n < 10 ^ (natLog10 n + 1) :=
  natLog10F_spec n n h le_rfl

theorem natClog10F_one (fuel : ℕ) : natClog10F fuel 1 = 0 := by
  cases fuel <;> simp [natClog10F]

theorem natClog10F_pos (fuel m : ℕ) (h2 : 2 ≤ m) (hf : m ≤ fuel) :
    1 ≤ natClog10F fuel m := by
  cases fuel with
  | zero => omega
  | succ f =>
    unfold natClog10F
    rw [if_neg (by omega : ¬ m ≤ 1)]
    omega

theorem natClog10F_spec : ∀ (fuel m : ℕ), 2 ≤ m → m ≤ fuel →
    m ≤ 10 ^ natClog10F fuel m ∧ 10 ^ natClog10F fuel m < 10 * m := by
  intro fuel
  induction fuel with
  | zero => intro m h2 hf; omega
  | succ f ih =>
    intro m h2 hf
    unfold natClog10F
    rw [if_neg (by omega : ¬ m ≤ 1)]
    have hm'le : 10 * ((m + 9) / 10) ≤ m + 9 := Nat.mul_div_le (m + 9) 10
    have hm'ge : m + 9 < 10 * ((m + 9) / 10) + 10 := Nat.lt_mul_div_succ (m + 9) (by norm_num)
    by_cases hone : (m + 9) / 10 = 1
    · rw [hone, natClog10F_one]
      constructor
      · simpa using (by omega : m ≤ 10)
      · simpa using (by omega : 10 < 10 * m)
    · have hm'2 : 2 ≤ (m + 9) / 10 := by omega
      have hm'f : (m + 9) / 10 ≤ f := by
        have : (m + 9) / 10 < m := Nat.div_lt_of_lt_mul (by omega)
        omega
      obtain ⟨ihA, ihB⟩ := ih ((m + 9) / 10) hm'2 hm'f
      have hk1 : 1 ≤ natClog10F f ((m + 9) / 10) := natClog10F_pos f _ hm'2 hm'f
      constructor
      · calc m ≤ 10 * ((m + 9) / 10) := by omega
          _ ≤ 10 * 10 ^ natClog10F f ((m + 9) / 10) := Nat.mul_le_mul_left 10 ihA
          _ = 10 ^ (natClog10F f ((m + 9) / 10) + 1) := by ring
      · have hksub : natClog10F f ((m + 9) / 10) = natClog10F f ((m + 9) / 10) - 1 + 1 := by omega
        have hlt : 10 ^ (natClog10F f ((m + 9) / 10) - 1) < (m + 9) / 10 := by
          have h1 : 10 * 10 ^ (natClog10F f ((m + 9) / 10) - 1) < 10 * ((m + 9) / 10) := by
            calc 10 * 10 ^ (natClog10F f ((m + 9) / 10) - 1)
                = 10 ^ (natClog10F f ((m + 9) / 10) - 1 + 1) := by ring
              _ = 10 ^ natClog10F f ((m + 9) / 10) := by rw [← hksub]
              _ < 10 * ((m + 9) / 10) := ihB
          omega
        have hpow : 10 ^ natClog10F f ((m + 9) / 10) < m := by
          have hle : 10 ^ (natClog10F f ((m + 9) / 10) - 1) ≤ (m + 9) / 10 - 1 := by omega
          have hsplit : 10 ^ natClog10F f ((m + 9) / 10) =
              10 * 10 ^ (natClog10F f ((m + 9) / 10) - 1) := by
            conv_lhs => rw [hksub]
            ring
          have h1 : 10 ^ natClog10F f ((m + 9) / 10) ≤ 10 * ((m + 9) / 10 - 1) := by
            rw [hsplit]
            exact Nat.mul_le_mul_left 10 hle
          omega
        calc 10 ^ (natClog10F f ((m + 9) / 10) + 1)
            = 10 * 10 ^ natClog10F f ((m + 9) / 10) := by ring
          _ < 10 * m := by omega

/-- The computable `qlog10floor` brackets its argument between consecutive
integer powers of ten, i.e. it is `⌊log10 v⌋`. -/
theorem qlog10floor_spec (v : ℚ) (hv : 0 < v) :
    (10:ℚ) ^ qlog10floor v ≤ v ∧ v < (10:ℚ) ^ (qlog10floor v + 1) := by
  unfold qlog10floor
  by_cases h1 : 1 ≤ v
  · rw [if_pos h1]
    have hfl : 1 ≤ ⌊v⌋ := Int.le_floor.mpr (by exact_mod_cast h1)
    have hn1 : 1 ≤ ⌊v⌋.toNat := by omega
    obtain ⟨hl, hu⟩ := natLog10_spec ⌊v⌋.toNat hn1
    have hcast : ((⌊v⌋.toNat : ℤ) : ℚ) = (⌊v⌋ : ℚ) := by
      have : (⌊v⌋.toNat : ℤ) = ⌊v⌋ := by omega
      rw [this]
    constructor
    · rw [zpow_natCast]
      calc (10:ℚ) ^ natLog10 ⌊v⌋.toNat
          = ((10 ^ natLog10 ⌊v⌋.toNat : ℕ) : ℚ) := by push_cast; ring
        _ ≤ ((⌊v⌋.toNat : ℕ) : ℚ) := by exact_mod_cast hl
        _ = (⌊v⌋ : ℚ) := by exact_mod_cast hcast
        _ ≤ v := Int.floor_le v
    · have hcast2 : ((⌊v⌋.toNat : ℕ) : ℚ) + 1 ≤ (10:ℚ) ^ (natLog10 ⌊v⌋.toNat + 1) := by
        have : (⌊v⌋.toNat : ℕ) + 1 ≤ 10 ^ (natLog10 ⌊v⌋.toNat + 1) := hu
        exact_mod_cast this
      calc v < (⌊v⌋ : ℚ) + 1 := Int.lt_floor_add_one v
        _ = ((⌊v⌋.toNat : ℕ) : ℚ) + 1 := by rw [← hcast]; push_cast; ring
        _ ≤ (10:ℚ) ^ (natLog10 ⌊v⌋.toNat + 1) := hcast2
        _ = (10:ℚ) ^ ((natLog10 ⌊v⌋.toNat : ℤ) + 1) := by
            rw [← zpow_natCast (10:ℚ) (natLog10 ⌊v⌋.toNat + 1)]
            norm_cast
  · rw [if_neg h1]
    have hv1 : v < 1 := not_le.mp h1
    have hw : 1 < v⁻¹ := (one_lt_inv₀ hv).mpr hv1
    have hw0 : 0 < v⁻¹ := lt_trans one_pos hw
    have hcm : (2:ℤ) ≤ ⌈v⁻¹⌉ := by
      have h := Int.lt_ceil.mpr (show ((1:ℤ):ℚ) < v⁻¹ by exact_mod_cast hw)
      omega
    have hm2 : 2 ≤ ⌈v⁻¹⌉.toNat := by omega
    obtain ⟨hA, hB⟩ := natClog10F_spec ⌈v⁻¹⌉.toNat ⌈v⁻¹⌉.toNat hm2 le_rfl
    have hk1 : 1 ≤ natClog10 ⌈v⁻¹⌉.toNat := natClog10F_pos _ _ hm2 le_rfl
    have hinvle : v⁻¹ ≤ (10:ℚ) ^ natClog10 ⌈v⁻¹⌉.toNat := by
      calc v⁻¹ ≤ (⌈v⁻¹⌉ : ℚ) := Int.le_ceil v⁻¹
        _ = ((⌈v⁻¹⌉.toNat : ℕ) : ℚ) := by
            have : (⌈v⁻¹⌉.toNat : ℤ) = ⌈v⁻¹⌉ := by omega
            exact_mod_cast (congrArg (fun z : ℤ => (z : ℚ)) this).symm
        _ ≤ (10:ℚ) ^ natClog10 ⌈v⁻¹⌉.toNat := by exact_mod_cast hA
    have hinvgt : (10:ℚ) ^ (natClog10 ⌈v⁻¹⌉.toNat - 1 : ℕ) < v⁻¹ := by
      have hlt : 10 ^ (natClog10 ⌈v⁻¹⌉.toNat - 1 : ℕ) < ⌈v⁻¹⌉.toNat := by
        have h1 : 10 * 10 ^ (natClog10 ⌈v⁻¹⌉.toNat - 1 : ℕ) < 10 * ⌈v⁻¹⌉.toNat := by
          calc 10 * 10 ^ (natClog10 ⌈v⁻¹⌉.toNat - 1 : ℕ)
              = 10 ^ (natClog10 ⌈v⁻¹⌉.toNat - 1 + 1) := by ring
            _ = 10 ^ natClog10 ⌈v⁻¹⌉.toNat := by
                have : natClog10 ⌈v⁻¹⌉.toNat - 1 + 1 = natClog10 ⌈v⁻¹⌉.toNat := by omega
                rw [this]
            _ < 10 * ⌈v⁻¹⌉.toNat := hB
        omega
      have hle : (10:ℚ) ^ (natClog10 ⌈v⁻¹⌉.toNat - 1 : ℕ) ≤ ((⌈v⁻¹⌉.toNat : ℕ) : ℚ) - 1 := by
        have : (10 ^ (natClog10 ⌈v⁻¹⌉.toNat - 1 : ℕ) : ℕ) + 1 ≤ ⌈v⁻¹⌉.toNat := hlt
        have hc : ((10 ^ (natClog10 ⌈v⁻¹⌉.toNat - 1 : ℕ) : ℕ) : ℚ) + 1 ≤ ((⌈v⁻¹⌉.toNat : ℕ) : ℚ) := by
          exact_mod_cast this
        push_cast at hc ⊢
        linarith
      have hceil : ((⌈v⁻¹⌉.toNat : ℕ) : ℚ) - 1 < v⁻¹ := by
        have h1 : (⌈v⁻¹⌉ : ℚ) < v⁻¹ + 1 := Int.ceil_lt_add_one v⁻¹
        have h2 : ((⌈v⁻¹⌉.toNat : ℕ) : ℚ) = (⌈v⁻¹⌉ : ℚ) := by
          have : (⌈v⁻¹⌉.toNat : ℤ) = ⌈v⁻¹⌉ := by omega
          exact_mod_cast congrArg (fun z : ℤ => (z : ℚ)) this
        rw [h2]
        linarith
      linarith
    constructor
    · rw [zpow_neg, zpow_natCast]
      have := inv_anti₀ hw0 hinvle
      rwa [inv_inv] at this
    · have hvlt : v < ((10:ℚ) ^ (natClog10 ⌈v⁻¹⌉.toNat - 1 : ℕ))⁻¹ := by
        have := inv_strictAnti₀ (by positivity) hinvgt
        rwa [inv_inv] at this
      have hexp : ((10:ℚ) ^ (natClog10 ⌈v⁻¹⌉.toNat - 1 : ℕ))⁻¹ =
          (10:ℚ) ^ (-(natClog10 ⌈v⁻¹⌉.toNat : ℤ) + 1) := by
        rw [← zpow_natCast (10:ℚ) (natClog10 ⌈v⁻¹⌉.toNat - 1), ← zpow_neg]
        have : -((natClog10 ⌈v⁻¹⌉.toNat - 1 : ℕ) : ℤ) = -(natClog10 ⌈v⁻¹⌉.toNat : ℤ) + 1 := by
          omega
        rw [this]
      rw [← hexp]
      exact hvlt

/-- `qlog10floor` is the unique integer bracketing its argument. -/
theorem qlog10floor_unique (v : ℚ) (z : ℤ) (hv : 0 < v)
    (h1 : (10:ℚ) ^ z ≤ v) (h2 : v < (10:ℚ) ^ (z + 1)) : qlog10floor v = z := by
  obtain ⟨l, u⟩ := qlog10floor_spec v hv
  by_contra hne
  rcases lt_or_gt_of_ne hne with hlt | hgt
  · have : (10:ℚ) ^ (qlog10floor v + 1) ≤ 10 ^ z :=
      zpow_le_zpow_right₀ (by norm_num) (by omega)
    linarith
  · have : (10:ℚ) ^ (z + 1) ≤ 10 ^ qlog10floor v :=
      zpow_le_zpow_right₀ (by norm_num) (by omega)
    linarith

/-- Scaling by a power of ten shifts `qlog10floor` by the exponent. -/
theorem qlog10floor_shift (x : ℚ) (k : ℤ) (hx : 0 < x) :
    qlog10floor (x * (10:ℚ) ^ k) = qlog10floor x + k := by
  obtain ⟨l, u⟩ := qlog10floor_spec x hx
  refine qlog10floor_unique _ _ (by positivity) ?_ ?_
  · rw [zpow_add₀ (by norm_num : (10:ℚ) ≠ 0)]
    exact mul_le_mul_of_nonneg_right l (by positivity)
  · have h1 : x * (10:ℚ) ^ k < (10:ℚ) ^ (qlog10floor x + 1) * 10 ^ k :=
      mul_lt_mul_of_pos_right u (by positivity)
    have h2 : (10:ℚ) ^ (qlog10floor x + 1) * 10 ^ k = 10 ^ (qlog10floor x + k + 1) := by
      rw [← zpow_add₀ (by norm_num : (10:ℚ) ≠ 0)]
      have : qlog10floor x + 1 + k = qlog10floor x + k + 1 := by ring
      rw [this]
    rw [← h2]
    exact h1

/-- Rounding to 4 significant digits commutes with scaling by a power of
ten. -/
theorem roundSig4_shift (x : ℚ) (k : ℤ) (hx : 0 < x) :
    roundSig4 (x * (10:ℚ) ^ k) = roundSig4 x * (10:ℚ) ^ k := by
  have hxk : 0 < x * (10:ℚ) ^ k := by positivity
  unfold roundSig4
  rw [if_neg (ne_of_gt hxk), if_neg (ne_of_gt hx)]
  rw [if_neg (not_lt.mpr (le_of_lt hxk)), if_neg (not_lt.mpr (le_of_lt hx))]
  rw [abs_of_pos hxk, abs_of_pos hx]
  rw [qlog10floor_shift x k hx]
  have harg : x * (10:ℚ) ^ k * (10:ℚ) ^ ((3:ℤ) - (qlog10floor x + k)) =
      x * (10:ℚ) ^ ((3:ℤ) - qlog10floor x) := by
    rw [mul_assoc, ← zpow_add₀ (by norm_num : (10:ℚ) ≠ 0)]
    have : k + ((3:ℤ) - (qlog10floor x + k)) = 3 - qlog10floor x := by ring
    rw [this]
  have hout : (10:ℚ) ^ (qlog10floor x + k - 3) = (10:ℚ) ^ (qlog10floor x - 3) * 10 ^ k := by
    rw [← zpow_add₀ (by norm_num : (10:ℚ) ≠ 0)]
    have : qlog10floor x - 3 + k = qlog10floor x + k - 3 := by ring
    rw [this]
  rw [harg, hout]
  ring

/-- `siFormat` on a positive value, with the if-branches resolved. -/
theorem siFormat_pos (v : ℚ) (hv : 0 < v) :
    siFormat v =
      (roundSig4 (v * (10:ℚ) ^ (Int.fmod (min 12 (qlog10floor v)) 3 - min 12 (qlog10floor v))),
       if 0 < Int.fdiv (min 12 (qlog10floor v)) 3 then
         (10:ℚ) ^ (3 * Int.fdiv (min 12 (qlog10floor v)) 3) else 1) := by
  unfold siFormat
  rw [if_neg (ne_of_gt hv), abs_of_pos hv]

/-- For every value at least 1 the numeric content of the formatted string is
exactly the value rounded to 4 significant digits: the `{:.4}`-rounded
reduced mantissa times the printed suffix's multiplier recovers
`roundSig4 v`. -/
theorem siConveyed_eq_roundSig4 (v : ℚ) (hv : 1 ≤ v) : siConveyed v = roundSig4 v := by
  have hv0 : 0 < v := lt_of_lt_of_le one_pos hv
  obtain ⟨hl, hu⟩ := qlog10floor_spec v hv0
  have he0 : 0 ≤ qlog10floor v := by
    by_contra h
    push_neg at h
    have h2 : (10:ℚ) ^ (qlog10floor v + 1) ≤ 10 ^ (0:ℤ) :=
      zpow_le_zpow_right₀ (by norm_num) (by omega)
    rw [zpow_zero] at h2
    linarith
  have hp0 : (0:ℤ) ≤ min 12 (qlog10floor v) := le_min (by norm_num) he0
  have hdiv : Int.fdiv (min 12 (qlog10floor v)) 3 = min 12 (qlog10floor v) / 3 :=
    Int.fdiv_eq_ediv _ (by norm_num)
  have hmod : Int.fmod (min 12 (qlog10floor v)) 3 = min 12 (qlog10floor v) % 3 :=
    Int.fmod_eq_emod _ (by norm_num)
  have hdm : 3 * Int.fdiv (min 12 (qlog10floor v)) 3 + Int.fmod (min 12 (qlog10floor v)) 3 =
      min 12 (qlog10floor v) := by
    rw [hdiv, hmod]
    exact Int.ediv_add_emod _ 3
  have hd0 : 0 ≤ Int.fdiv (min 12 (qlog10floor v)) 3 := by
    rw [hdiv]
    exact Int.ediv_nonneg hp0 (by norm_num)
  unfold siConveyed
  rw [siFormat_pos v hv0]
  have hmult : (if 0 < Int.fdiv (min 12 (qlog10floor v)) 3 then
      (10:ℚ) ^ (3 * Int.fdiv (min 12 (qlog10floor v)) 3) else 1) =
      (10:ℚ) ^ (3 * Int.fdiv (min 12 (qlog10floor v)) 3) := by
    by_cases h : 0 < Int.fdiv (min 12 (qlog10floor v)) 3
    · rw [if_pos h]
    · have hz : Int.fdiv (min 12 (qlog10floor v)) 3 = 0 := le_antisymm (not_lt.mp h) hd0
      rw [if_neg h, hz]
      norm_num
  show roundSig4 (v * (10:ℚ) ^ (Int.fmod (min 12 (qlog10floor v)) 3 - min 12 (qlog10floor v))) *
      (if 0 < Int.fdiv (min 12 (qlog10floor v)) 3 then
        (10:ℚ) ^ (3 * Int.fdiv (min 12 (qlog10floor v)) 3) else 1) = roundSig4 v
  rw [hmult, roundSig4_shift v _ hv0, mul_assoc, ← zpow_add₀ (by norm_num : (10:ℚ) ≠ 0)]
  have hzero : Int.fmod (min 12 (qlog10floor v)) 3 - min 12 (qlog10floor v) +
      3 * Int.fdiv (min 12 (qlog10floor v)) 3 = 0 := by omega
  rw [hzero, zpow_zero, mul_one]

/-- Counterexample to C8 as stated: for the positive magnitude `m = 0.5`
with no suffix, `SINumber.__str__` computes `power = -1`, `d = -1`, `m = 2`,
scales the value by `10^3` to `500` — but prints NO suffix because `d > 0`
fails — so the formatted string conveys the value `500`, which does not
reproduce `0.5` (whose 4-significant-digit rounding is `0.5` itself). -/
theorem si_roundtrip_counterexample :
    siConveyed ((1:ℚ)/2) = 500 ∧ roundSig4 ((1:ℚ)/2) = 1/2 ∧ ((500:ℚ) ≠ (1:ℚ)/2) := by
  have hq : qlog10floor ((1:ℚ)/2) = -1 := by
    unfold qlog10floor
    rw [if_neg (by norm_num)]
    rw [show ((1:ℚ)/2)⁻¹ = 2 by norm_num]
    rw [show ⌈(2:ℚ)⌉ = (2:ℤ) by norm_num]
    rw [show ((2:ℤ)).toNat = 2 from rfl]
    rw [show natClog10 2 = 1 from by decide]
    rfl
  have hq500 : qlog10floor (500:ℚ) = 2 := by
    unfold qlog10floor
    rw [if_pos (by norm_num)]
    rw [show ⌊(500:ℚ)⌋ = (500:ℤ) by norm_num]
    rw [show ((500:ℤ)).toNat = 500 from rfl]
    rw [show natLog10 500 = 2 from by decide]
    rfl
  have hround500 : roundSig4 (500:ℚ) = 500 := by
    unfold roundSig4
    rw [if_neg (by norm_num), if_neg (by norm_num)]
    rw [abs_of_pos (by norm_num : (0:ℚ) < 500), hq500]
    rw [show ((3:ℤ) - 2) = 1 by norm_num]
    rw [show (500:ℚ) * (10:ℚ)^(1:ℤ) = 5000 by norm_num]
    rw [show pyRoundHalfEven (5000:ℚ) = 5000 from by
      unfold pyRoundHalfEven
      rw [show ⌊(5000:ℚ)⌋ = (5000:ℤ) by norm_num]
      norm_num]
    norm_num
  have hroundhalf : roundSig4 ((1:ℚ)/2) = 1/2 := by
    unfold roundSig4
    rw [if_neg (by norm_num), if_neg (by norm_num)]
    rw [abs_of_pos (by norm_num : (0:ℚ) < 1/2), hq]
    rw [show ((3:ℤ) - -1) = 4 by norm_num]
    rw [show ((1:ℚ)/2) * (10:ℚ)^(4:ℤ) = 5000 by norm_num]
    rw [show pyRoundHalfEven (5000:ℚ) = 5000 from by
      unfold pyRoundHalfEven
      rw [show ⌊(5000:ℚ)⌋ = (5000:ℤ) by norm_num]
      norm_num]
    norm_num
  refine ⟨?_, hroundhalf, by norm_num⟩
  unfold siConveyed
  rw [siFormat_pos _ (by norm_num), hq]
  rw [show min (12:ℤ) (-1) = -1 by decide]
  rw [show Int.fmod (-1) 3 = 2 from by decide, show Int.fdiv (-1) 3 = -1 from by decide]
  rw [if_neg (by decide : ¬ (0:ℤ) < -1)]
  rw [show ((2:ℤ) - -1) = 3 by norm_num]
  rw [show ((1:ℚ)/2) * (10:ℚ)^(3:ℤ) = 500 by norm_num]
  rw [hround500]
  norm_num

/-- Amended C8: for every positive magnitude and suffix whose parsed value
`m × suffixMultiplier` is at least 1, the value the formatted string conveys
(displayed number times printed-suffix multiplier), scaled back to the
original suffix, is exactly `m` rounded to 4 significant digits — the round
trip holds.  (For parsed values below 1 the formatter scales the mantissa by
a power of 1000 but prints no suffix, and the round trip fails; see the
counterexample.) -/
theorem si_roundtrip_amended (m : ℚ) (j : ℕ) (hm : 0 < m) (_hj : j ≤ 4)
    (hv : 1 ≤ m * suffixMultOf j) :
    siConveyed (m * suffixMultOf j) = roundSig4 m * suffixMultOf j := by
  have hsm : suffixMultOf j = (10:ℚ) ^ ((3 * j : ℕ) : ℤ) := by
    unfold suffixMultOf
    rw [zpow_natCast]
  rw [hsm] at hv ⊢
  rw [siConveyed_eq_roundSig4 _ hv, roundSig4_shift m _ hm]

/-- Witness for the amended C8: `m = 5` with the `k` suffix. -/
theorem si_roundtrip_amended_witness :
    siConveyed (5 * suffixMultOf 1) = roundSig4 5 * suffixMultOf 1 :=
  si_roundtrip_amended 5 1 (by norm_num) (by norm_num) (by norm_num [suffixMultOf])

end Factoratio
